import Mathlib

/-
Verification of the rinha-backend-golang dispatch pipeline.

The Go program (api/worker/worker.go, api/gateway/gateway.go, api/main.go)
keeps all shared state in Redis.  The embedding below models that state as
an explicit `Store` record and each handler as a pure state-transforming
function translated from the Go source:

  * `existsCheck`            — the EXISTS check on the correlationId key
    at the top of `Worker.processPayment` (worker.go:71).
  * `healthRead`             — the GET on `health:<name>` with its
    assume-healthy-on-genuine-error fallback (worker.go:80..89).
  * `commitSuccess`          — the success branch of `processPayment`:
    INCR requests, INCRBYFLOAT amount, SET the processed marker
    (worker.go:96..105 and 116..125).
  * `processPayment`         — `Worker.processPayment` (worker.go:67..134).
  * `callProcessor`          — `Worker.callProcessor` (worker.go:136..181),
    as a function of the HTTP outcome.
  * `handlePaymentsSummary`  — `Worker.handlePaymentsSummary`
    (worker.go:183..207): GET of the four counters with errors ignored,
    so an absent key reads as 0.
  * `handlePurgePayments`    — `Worker.handlePurgePayments`
    (worker.go:209..216): DEL of the four summary keys only; the
    processed-correlationId marker keys are intentionally not deleted.
  * `checkProcessorHealth`   — `Worker.checkProcessorHealth`
    (worker.go:227..260), as a function of the probe HTTP outcome.
  * `handlePayments`         — `APIGateway.handlePayments`
    (gateway.go:55..73): JSON decode, then a non-blocking send on the
    bounded channel (success / full).

Redis keys that may be absent are modelled as `Option`; DEL sets them back
to `none`, INCR on an absent key yields 1, and the summary handler reads
absent keys as 0 (it discards the error from `Get(...).Int64()`).

The marker key written by `Set(ctx, req.CorrelationID, "processed", 0)`
carries no payload in Redis; the embedding stores it as a
`PersistedPayment` row that also records, as ghost data, the amount and
the processor in scope at the write site, so that the aggregation
invariant of the spec can be stated.  `existsCheck` consults only the
correlationId, exactly as the Go code does.

Amounts are float64 in Go; the embedding uses exact rationals, which is
faithful for every property checked here (none depends on rounding).

Fault injection (`RedisFaults`) makes the error branches of the Go code
reachable: each flag selects the error path of one Redis command, and the
state transition follows the Go handling of that error (early return, the
assume-healthy fallback, or log-and-continue).
-/

namespace RinhaGo

/-- The two external settlement services the worker can route to. -/
inductive Processor
  | default
  | fallback
deriving DecidableEq

/-- A payment submission: models.PaymentRequest restricted to the two
fields the pipeline logic reads (correlationId, amount). The timestamp is
wall-clock bookkeeping and the processor field is only set on success,
which the embedding tracks as the outcome. -/
structure PaymentRequest where
  correlationId : String
  amount : Rat
deriving DecidableEq

/-- Per-processor totals, as in models.Summary. -/
structure Summary where
  totalRequests : Int
  totalAmount : Rat
deriving DecidableEq

/-- The body of GET /payments-summary, as in models.PaymentSummaryResponse. -/
structure PaymentSummaryResponse where
  default : Summary
  fallback : Summary
deriving DecidableEq

/-- The processed-correlationId marker key in Redis, enriched with ghost
fields recording the amount and processor in scope when the marker was
written (the Go code writes only the string "processed" under the
correlationId key). -/
structure PersistedPayment where
  correlationId : String
  amount : Rat
  processor : Processor
deriving DecidableEq

/-- The Redis state the pipeline reads and writes: the marker keys, the two
health keys and the four summary counter keys.  `none` models an absent
key. -/
structure Store where
  rows : List PersistedPayment
  healthDefault : Option Bool
  healthFallback : Option Bool
  defaultRequests : Option Int
  defaultAmount : Option Rat
  fallbackRequests : Option Int
  fallbackAmount : Option Rat
deriving DecidableEq

/-- The empty Redis database at startup. -/
def initStore : Store :=
  ⟨[], none, none, none, none, none, none⟩

/-- The EXISTS check on the correlationId key (worker.go:71): true when a
processed marker for this id is present. -/
def existsCheck (st : Store) (id : String) : Bool :=
  st.rows.any (fun r => decide (r.correlationId = id))

/-- Redis INCR: an absent key is treated as 0 and incremented to 1. -/
def optIncr (o : Option Int) : Option Int :=
  some (o.getD 0 + 1)

/-- Redis INCRBYFLOAT: an absent key is treated as 0. -/
def optIncrBy (a : Rat) (o : Option Rat) : Option Rat :=
  some (o.getD 0 + a)

/-- INCR of summary:X:requests (worker.go:97 / 117). -/
def incrRequests (st : Store) : Processor → Store
  | .default => { st with defaultRequests := optIncr st.defaultRequests }
  | .fallback => { st with fallbackRequests := optIncr st.fallbackRequests }

/-- INCRBYFLOAT of summary:X:amount (worker.go:100 / 120). -/
def incrAmount (st : Store) (p : Processor) (a : Rat) : Store :=
  match p with
  | .default => { st with defaultAmount := optIncrBy a st.defaultAmount }
  | .fallback => { st with fallbackAmount := optIncrBy a st.fallbackAmount }

/-- SET of the processed marker under the correlationId key
(worker.go:103 / 123).  Redis SET overwrites, so any existing row with the
same key is replaced. -/
def setProcessed (st : Store) (id : String) (a : Rat) (p : Processor) : Store :=
  { st with rows := st.rows.filter (fun r => !decide (r.correlationId = id)) ++ [⟨id, a, p⟩] }

/-- Fault injection for the Redis commands issued by processPayment: each
flag makes the corresponding command return an error, and the embedding
then follows the Go error-handling branch for that command. -/
structure RedisFaults where
  existsErr : Bool
  healthReadErrDefault : Bool
  healthReadErrFallback : Bool
  incrReqErr : Bool
  incrAmtErr : Bool
  setMarkerErr : Bool
deriving DecidableEq

/-- All Redis commands succeed. -/
def noFaults : RedisFaults :=
  ⟨false, false, false, false, false, false⟩

/-- Reading a health flag (worker.go:80..89): a genuine Redis error (not
redis.Nil) makes the worker assume healthy; an absent key (redis.Nil)
leaves the zero value false; otherwise the stored value is used. -/
def healthRead (stored : Option Bool) (genuineErr : Bool) : Bool :=
  if genuineErr then true else stored.getD false

/-- Outcome of the HTTP POST to an external processor, as observed by
callProcessor: a marshalling error, a request-build error, a transport
error (including timeout), or a response with its status and the decoded
message field (none when the body does not decode). -/
inductive ProcessorResponse
  | marshalErr
  | reqBuildErr
  | netErr
  | httpResponse (status : Nat) (message : Option String)
deriving DecidableEq

/-- Worker.callProcessor (worker.go:136..181): true exactly on HTTP 200
with a decodable body whose message is the success marker; every error
path returns false. -/
def callProcessor : ProcessorResponse → Bool
  | .marshalErr => false
  | .reqBuildErr => false
  | .netErr => false
  | .httpResponse status message =>
    if status ≠ 200 then false
    else
      match message with
      | none => false
      | some m => decide (m = "payment processed successfully")

/-- The responses the two external services would give if called. -/
structure CallOutcomes where
  defaultResp : ProcessorResponse
  fallbackResp : ProcessorResponse
deriving DecidableEq

/-- The successful-call response. -/
def respOk : ProcessorResponse :=
  ProcessorResponse.httpResponse 200 (some "payment processed successfully")

/-- Both services would answer success. -/
def cOk : CallOutcomes :=
  ⟨respOk, respOk⟩

/-- A Redis write command issued by the success branch of processPayment,
recorded in issue order. -/
inductive RedisWrite
  | incrRequests (p : Processor)
  | incrAmount (p : Processor) (a : Rat)
  | setProcessed (id : String)
deriving DecidableEq

/-- The success branch of processPayment (worker.go:96..105 / 116..125):
INCR the requests counter, INCRBYFLOAT the amount, SET the marker — in
that order; a failing command is only logged, the next one still runs. -/
def commitSuccess (st : Store) (req : PaymentRequest) (p : Processor) (f : RedisFaults) : Store :=
  let st1 := if f.incrReqErr then st else incrRequests st p
  let st2 := if f.incrAmtErr then st1 else incrAmount st1 p req.amount
  if f.setMarkerErr then st2 else setProcessed st2 req.correlationId req.amount p

/-- The three Redis writes issued by the success branch, in issue order. -/
def commitWrites (req : PaymentRequest) (p : Processor) : List RedisWrite :=
  [RedisWrite.incrRequests p, RedisWrite.incrAmount p req.amount,
   RedisWrite.setProcessed req.correlationId]

/-- Result of one processPayment run: the new store, the processors whose
payments endpoint was actually called (in order), the settling processor
(none when dropped), and the Redis writes issued. -/
structure ProcResult where
  store : Store
  attempts : List Processor
  outcome : Option Processor
  writes : List RedisWrite
deriving DecidableEq

/-- Worker.processPayment (worker.go:67..134): exists check (return on
error or on a present marker), the two health reads, then the default
attempt when default is healthy, the fallback attempt when the default
attempt did not settle and fallback is healthy, otherwise drop. -/
def processPayment (st : Store) (req : PaymentRequest) (f : RedisFaults)
    (c : CallOutcomes) : ProcResult :=
  if f.existsErr then ⟨st, [], none, []⟩
  else if existsCheck st req.correlationId then ⟨st, [], none, []⟩
  else
    let isDefaultHealthy := healthRead st.healthDefault f.healthReadErrDefault
    let isFallbackHealthy := healthRead st.healthFallback f.healthReadErrFallback
    if isDefaultHealthy && callProcessor c.defaultResp then
      ⟨commitSuccess st req .default f, [.default], some .default,
       commitWrites req .default⟩
    else
      let firstAttempts : List Processor := if isDefaultHealthy then [.default] else []
      if isFallbackHealthy && callProcessor c.fallbackResp then
        ⟨commitSuccess st req .fallback f, firstAttempts ++ [.fallback], some .fallback,
         commitWrites req .fallback⟩
      else
        ⟨st, firstAttempts ++ (if isFallbackHealthy then [.fallback] else []), none, []⟩

/-- Worker.handlePaymentsSummary (worker.go:183..207): GET of the four
counters with the error discarded, so an absent key reads as zero. -/
def handlePaymentsSummary (st : Store) : PaymentSummaryResponse :=
  { default := { totalRequests := st.defaultRequests.getD 0,
                 totalAmount := st.defaultAmount.getD 0 },
    fallback := { totalRequests := st.fallbackRequests.getD 0,
                  totalAmount := st.fallbackAmount.getD 0 } }

/-- Worker.handlePurgePayments (worker.go:209..216): DEL of the four
summary counter keys; the processed-correlationId marker keys are left in
place (the source comments this choice explicitly). -/
def handlePurgePayments (st : Store) : Store :=
  { st with defaultRequests := none, defaultAmount := none,
            fallbackRequests := none, fallbackAmount := none }

/-- Outcome of the GET on the service-health endpoint as observed by
checkProcessorHealth: request-build error, transport error (including
timeout), or a response with its status and the decoded failing field
(none when the body does not decode). -/
inductive ProbeOutcome
  | reqBuildErr
  | netErr
  | httpResponse (status : Nat) (failing : Option Bool)
deriving DecidableEq

/-- The health value a probe outcome yields (worker.go:227..260): healthy
exactly on HTTP 200 with a decodable body whose failing field is false;
every other path stores false. -/
def probeHealthy : ProbeOutcome → Bool
  | .reqBuildErr => false
  | .netErr => false
  | .httpResponse status failing =>
    if status = 200 then
      match failing with
      | some b => !b
      | none => false
    else false

/-- SET of the health:name key. -/
def setHealth (st : Store) (p : Processor) (h : Bool) : Store :=
  match p with
  | .default => { st with healthDefault := some h }
  | .fallback => { st with healthFallback := some h }

/-- Worker.checkProcessorHealth (worker.go:227..260): every path of the
probe ends in one SET of the health flag to the probe result. -/
def checkProcessorHealth (st : Store) (p : Processor) (r : ProbeOutcome) : Store :=
  setHealth st p (probeHealthy r)

/-- The stored health flag of a processor. -/
def healthFlag (st : Store) : Processor → Option Bool
  | .default => st.healthDefault
  | .fallback => st.healthFallback

/-- An inbound POST /payments body as seen after Go JSON decoding: either
the body does not decode at all, or it decodes to an object in which each
of the two fields may be absent (Go leaves the zero value for an absent
field). -/
inductive RequestBody
  | undecodable
  | decoded (correlationId : Option String) (amount : Option Rat)
deriving DecidableEq

/-- Go json.Decode into models.PaymentRequest: fails only when the body is
not decodable; absent fields become the zero values "" and 0. -/
def decodeRequest : RequestBody → Option PaymentRequest
  | .undecodable => none
  | .decoded cid amt => some ⟨cid.getD "", amt.getD 0⟩

/-- config.QueueSize, the capacity of the payment channel. -/
def queueSize : Nat := 10000

/-- APIGateway.handlePayments (gateway.go:55..73) on a POST: decode the
body (undecodable gives 400 and no enqueue), then a non-blocking send on
the bounded channel: 200 and append when below capacity, 503 and an
unchanged queue when full.  Only the success branch logs the payment. -/
def handlePayments (queue : List PaymentRequest) (cap : Nat) (b : RequestBody) :
    Nat × List PaymentRequest :=
  match decodeRequest b with
  | none => (400, queue)
  | some req =>
    if queue.length < cap then (200, queue ++ [req])
    else (503, queue)

/-- One worker-side operation in a sequential run of the system: a
process-payment run with all Redis commands succeeding, a summary query
(read-only), a health probe, or a purge. -/
inductive SysOp
  | process (req : PaymentRequest) (c : CallOutcomes)
  | summaryQuery
  | probe (p : Processor) (r : ProbeOutcome)
  | purge
deriving DecidableEq

/-- The store transition of one operation. -/
def step (st : Store) : SysOp → Store
  | .process req c => (processPayment st req noFaults c).store
  | .summaryQuery => st
  | .probe p r => checkProcessorHealth st p r
  | .purge => handlePurgePayments st

/-- A sequential run of a list of operations. -/
def run (st : Store) (ops : List SysOp) : Store :=
  ops.foldl step st

/-- The persisted rows settled by a given processor. -/
def rowsFor (st : Store) (p : Processor) : List PersistedPayment :=
  st.rows.filter (fun r => decide (r.processor = p))

/-- Sum of the amounts of a list of rows. -/
def sumAmount (l : List PersistedPayment) : Rat :=
  (l.map (fun r => r.amount)).sum

/-- The per-processor component of a summary response. -/
def procSummary (resp : PaymentSummaryResponse) : Processor → Summary
  | .default => resp.default
  | .fallback => resp.fallback

/-- The requests counter key of a processor. -/
def requestsCounter (st : Store) : Processor → Option Int
  | .default => st.defaultRequests
  | .fallback => st.fallbackRequests

/-- The amount counter key of a processor. -/
def amountCounter (st : Store) : Processor → Option Rat
  | .default => st.defaultAmount
  | .fallback => st.fallbackAmount

/-- The aggregation contract of the spec: for each processor the summary
response equals the count and amount-sum of the persisted rows settled by
that processor. -/
def summaryMatchesRows (st : Store) : Prop :=
  ∀ p : Processor,
    (procSummary (handlePaymentsSummary st) p).totalRequests =
      ((rowsFor st p).length : Int) ∧
    (procSummary (handlePaymentsSummary st) p).totalAmount =
      sumAmount (rowsFor st p)

/-- A store with both processors marked healthy and nothing processed. -/
def bothHealthyStore : Store :=
  ⟨[], some true, some true, none, none, none, none⟩

/-- A concrete submission used in counterexamples and witnesses. -/
def reqC1 : PaymentRequest :=
  ⟨"c1", 10⟩

end RinhaGo
namespace RinhaGo

theorem healthFlag_commitSuccess (st : Store) (req : PaymentRequest) (q : Processor)
    (f : RedisFaults) (p : Processor) :
    healthFlag (commitSuccess st req q f) p = healthFlag st p := by
  cases q <;> cases p <;>
    simp [commitSuccess, incrRequests, incrAmount, setProcessed, healthFlag] <;>
    split_ifs <;> rfl

theorem healthFlag_processPayment (st : Store) (req : PaymentRequest) (f : RedisFaults)
    (c : CallOutcomes) (p : Processor) :
    healthFlag ((processPayment st req f c).store) p = healthFlag st p := by
  simp only [processPayment]
  split_ifs <;> simp [healthFlag_commitSuccess]

/-- C6: callProcessor reports success exactly on HTTP 200 with a decodable
body whose message equals the success marker; every other outcome
(transport error, timeout, non-200, undecodable body, other message) is
failure, with no distinction among failure kinds. -/
theorem callProcessor_success_iff (r : ProcessorResponse) :
    callProcessor r = true ↔
      r = ProcessorResponse.httpResponse 200 (some "payment processed successfully") := by
  cases r with
  | marshalErr => simp [callProcessor]
  | reqBuildErr => simp [callProcessor]
  | netErr => simp [callProcessor]
  | httpResponse s m =>
    cases m with
    | none =>
      simp only [callProcessor]
      split_ifs <;> simp
    | some msg =>
      simp only [callProcessor, ProcessorResponse.httpResponse.injEq, Option.some.injEq]
      split_ifs with h
      · simp [h]
      · push_neg at h
        simp [h]

/-- C7: a health probe stores healthy exactly when the probe outcome is
HTTP 200 with a decodable body whose failing field is false, and stores
unhealthy in every other case; neither a processPayment run nor a purge
changes a health flag, so the flag changes only by a probe. -/
theorem healthFlag_set_by_probe_only (st : Store) (p : Processor) (r : ProbeOutcome) :
    healthFlag (checkProcessorHealth st p r) p = some (probeHealthy r) ∧
    (probeHealthy r = true ↔ r = ProbeOutcome.httpResponse 200 (some false)) ∧
    (∀ req f c, healthFlag ((processPayment st req f c).store) p = healthFlag st p) ∧
    healthFlag (handlePurgePayments st) p = healthFlag st p := by
  refine ⟨?_, ?_, fun req f c => healthFlag_processPayment st req f c p, ?_⟩
  · cases p <;> simp [checkProcessorHealth, setHealth, healthFlag]
  · cases r with
    | reqBuildErr => simp [probeHealthy]
    | netErr => simp [probeHealthy]
    | httpResponse s b =>
      cases b with
      | none =>
        simp only [probeHealthy]
        split_ifs <;> simp
      | some failing =>
        simp only [probeHealthy, ProbeOutcome.httpResponse.injEq, Option.some.injEq]
        split_ifs with h
        · cases failing <;> simp [h]
        · simp [h]
  · cases p <;> rfl

/-- C8: an admission attempt on a queue holding exactly its capacity
returns 503 and leaves the queue as it was: nothing evicted, nothing
added, and no other effect (the logging call sits in the success branch
only). -/
theorem queueFull_rejected_unchanged (queue : List PaymentRequest) (cap : Nat)
    (b : RequestBody) (req : PaymentRequest)
    (hdec : decodeRequest b = some req) (hfull : queue.length = cap) :
    handlePayments queue cap b = (503, queue) := by
  simp [handlePayments, hdec, hfull]

/-- C8 witness: a queue filled to the configured capacity rejects the next
decodable admission with 503 and keeps its contents. -/
theorem queueFull_rejected_unchanged_witness :
    handlePayments (List.replicate queueSize reqC1) queueSize
        (RequestBody.decoded (some "c2") (some 5)) =
      (503, List.replicate queueSize reqC1) :=
  queueFull_rejected_unchanged (List.replicate queueSize reqC1) queueSize
    (RequestBody.decoded (some "c2") (some 5)) ⟨"c2", 5⟩ rfl (by simp)

/-- C4 counterexample: a decodable body with both fields absent is not
rejected: the gateway answers 200 and enqueues a request with the Go zero
values, contradicting the claim that a body missing either field gets 400
and causes no enqueue. -/
theorem missingFields_admitted :
    handlePayments [] queueSize (RequestBody.decoded none none) =
      (200, [⟨"", 0⟩]) := by
  decide

/-- C4 amended: ingress rejects with 400 and does not touch the queue
exactly when the body fails JSON decoding; a decodable body is admitted
even when a field is absent, with the absent fields defaulting to the Go
zero values. -/
theorem undecodable_rejected_no_enqueue (queue : List PaymentRequest) (cap : Nat) :
    handlePayments queue cap RequestBody.undecodable = (400, queue) ∧
    ∀ cid amt, decodeRequest (RequestBody.decoded cid amt) =
      some ⟨cid.getD "", amt.getD 0⟩ :=
  ⟨rfl, fun _ _ => rfl⟩

end RinhaGo
namespace RinhaGo

theorem processPayment_settled (st : Store) (req : PaymentRequest) (f : RedisFaults)
    (c : CallOutcomes) (p : Processor)
    (hout : (processPayment st req f c).outcome = some p) :
    (processPayment st req f c).store = commitSuccess st req p f ∧
    (processPayment st req f c).writes = commitWrites req p ∧
    existsCheck st req.correlationId = false ∧ f.existsErr = false := by
  simp only [processPayment] at hout ⊢
  split_ifs at hout ⊢ <;> simp_all

/-- C5: with the idempotency check passed and the health reads succeeding,
the router attempts default first exactly when default is marked healthy,
attempts fallback exactly when fallback is marked healthy and the default
attempt did not settle, settles with the first successful attempt, makes
no external call when neither service is marked healthy, and leaves the
store untouched whenever the submission is dropped; in particular a
default marked unhealthy is never attempted. -/
theorem selection_failover_policy (st : Store) (req : PaymentRequest) (f : RedisFaults)
    (c : CallOutcomes)
    (hf1 : f.existsErr = false) (hf2 : f.healthReadErrDefault = false)
    (hf3 : f.healthReadErrFallback = false)
    (hnew : existsCheck st req.correlationId = false) :
    (processPayment st req f c).attempts =
      (if st.healthDefault.getD false then [Processor.default] else []) ++
      (if st.healthFallback.getD false &&
          !(st.healthDefault.getD false && callProcessor c.defaultResp)
       then [Processor.fallback] else []) ∧
    (processPayment st req f c).outcome =
      (if st.healthDefault.getD false && callProcessor c.defaultResp then
         some Processor.default
       else if st.healthFallback.getD false && callProcessor c.fallbackResp then
         some Processor.fallback
       else none) ∧
    (st.healthDefault.getD false = false →
      Processor.default ∉ (processPayment st req f c).attempts) ∧
    ((processPayment st req f c).outcome = none → (processPayment st req f c).store = st) := by
  simp only [processPayment, hf1, hnew, healthRead, hf2, hf3]
  cases hD : st.healthDefault.getD false <;>
    cases hF : st.healthFallback.getD false <;>
      cases hcd : callProcessor c.defaultResp <;>
        cases hcf : callProcessor c.fallbackResp <;>
          simp_all

/-- A store with default marked unhealthy and fallback healthy. -/
def wStore : Store := ⟨[], some false, some true, none, none, none, none⟩

/-- C5 witness: with default marked unhealthy and fallback healthy, the
submission is attempted only at fallback and settles there. -/
theorem selection_failover_policy_witness :
    (processPayment wStore reqC1 noFaults cOk).attempts = [Processor.fallback] ∧
    (processPayment wStore reqC1 noFaults cOk).outcome = some Processor.fallback := by
  have h := selection_failover_policy wStore reqC1 noFaults cOk rfl rfl rfl (by decide)
  exact ⟨h.1.trans (by decide), h.2.1.trans (by decide)⟩

/-- Both external services would answer with a transport error. -/
def cFail : CallOutcomes := ⟨ProcessorResponse.netErr, ProcessorResponse.netErr⟩

/-- A store with both processors marked unhealthy. -/
def unhealthyStore : Store := ⟨[], some false, some false, none, none, none, none⟩

/-- C9: a genuine error on a health-flag read (as opposed to an absent
key) makes the worker assume that processor healthy, independently per
processor: with the default read failing, default is attempted first
whatever the stored flag says; with the fallback read failing and the
default attempt not settling, fallback is attempted whatever its stored
flag says. -/
theorem healthRead_fails_open (st : Store) (req : PaymentRequest) (c : CallOutcomes)
    (hnew : existsCheck st req.correlationId = false) :
    (∀ v : Option Bool, healthRead v true = true) ∧
    (processPayment st req ⟨false, true, false, false, false, false⟩ c).attempts.head? =
      some Processor.default ∧
    (callProcessor c.defaultResp = false →
      Processor.fallback ∈
        (processPayment st req ⟨false, false, true, false, false, false⟩ c).attempts) := by
  have herr : ∀ v : Option Bool, healthRead v true = true := fun v => rfl
  have hok : ∀ v : Option Bool, healthRead v false = v.getD false := fun v => rfl
  refine ⟨herr, ?_, fun hcd => ?_⟩
  · simp only [processPayment, hnew, herr, hok, Bool.true_and]
    cases hcd : callProcessor c.defaultResp <;>
      cases hF : st.healthFallback.getD false <;>
        cases hcf : callProcessor c.fallbackResp <;> simp_all
  · simp only [processPayment, hnew, herr, hok, hcd, Bool.and_false, Bool.true_and]
    cases hD : st.healthDefault.getD false <;>
      cases hcf : callProcessor c.fallbackResp <;> simp_all

/-- C9 witness: with both stored flags false but the corresponding reads
failing, default is still attempted first, and fallback is still attempted
after the default call fails. -/
theorem healthRead_fails_open_witness :
    (processPayment unhealthyStore reqC1
        ⟨false, true, false, false, false, false⟩ cFail).attempts.head? =
      some Processor.default ∧
    Processor.fallback ∈
      (processPayment unhealthyStore reqC1
        ⟨false, false, true, false, false, false⟩ cFail).attempts := by
  have h := healthRead_fails_open unhealthyStore reqC1 cFail (by decide)
  exact ⟨h.2.1, h.2.2 (by decide)⟩

/-- C10: on a settled submission the worker issues the Redis writes in the
fixed order INCR requests, INCRBYFLOAT amount, SET marker; when the marker
write fails while the increments succeed, the error is only logged: both
increments are retained and no marker row is written, with no rollback. -/
theorem success_write_order_no_rollback (st : Store) (req : PaymentRequest)
    (f : RedisFaults) (c : CallOutcomes) (p : Processor)
    (hout : (processPayment st req f c).outcome = some p)
    (h1 : f.incrReqErr = false) (h2 : f.incrAmtErr = false) (h3 : f.setMarkerErr = true) :
    (processPayment st req f c).writes = commitWrites req p ∧
    requestsCounter ((processPayment st req f c).store) p =
      some ((requestsCounter st p).getD 0 + 1) ∧
    amountCounter ((processPayment st req f c).store) p =
      some ((amountCounter st p).getD 0 + req.amount) ∧
    ((processPayment st req f c).store).rows = st.rows := by
  obtain ⟨hstore, hwrites, -, -⟩ := processPayment_settled st req f c p hout
  rw [hstore, hwrites]
  have hcs : commitSuccess st req p f = incrAmount (incrRequests st p) p req.amount := by
    simp [commitSuccess, h1, h2, h3]
  rw [hcs]
  refine ⟨rfl, ?_, ?_, ?_⟩ <;> cases p <;>
    simp [incrRequests, incrAmount, requestsCounter, amountCounter, optIncr, optIncrBy]

/-- C10 witness: a settled default submission whose marker write fails
issues the three writes in order and keeps the increments while writing no
row. -/
theorem success_write_order_no_rollback_witness :
    (processPayment bothHealthyStore reqC1
        ⟨false, false, false, false, false, true⟩ cOk).writes =
      commitWrites reqC1 Processor.default ∧
    requestsCounter ((processPayment bothHealthyStore reqC1
        ⟨false, false, false, false, false, true⟩ cOk).store) Processor.default = some 1 ∧
    ((processPayment bothHealthyStore reqC1
        ⟨false, false, false, false, false, true⟩ cOk).store).rows = [] := by
  have h := success_write_order_no_rollback bothHealthyStore reqC1
    ⟨false, false, false, false, false, true⟩ cOk Processor.default (by decide) rfl rfl rfl
  exact ⟨h.1, by rw [h.2.1]; decide, by rw [h.2.2.2]; rfl⟩

end RinhaGo
namespace RinhaGo

/-- C1 amended: sequential idempotency. Once a run of processPayment has
settled a correlationId (all Redis writes succeeding), the marker row is
unique for that id, each summary counter of the settling processor was
incremented exactly once, and any later run for the same correlationId is
a complete no-op: same store, no attempt, no write.  (The concurrent case
is refuted separately: the existence check and the marker write are
distinct Redis commands, so two overlapping runs can both pass the check.) -/
theorem idempotent_after_settle (st0 : Store) (req : PaymentRequest) (c : CallOutcomes)
    (p : Processor) (f2 : RedisFaults) (c2 : CallOutcomes)
    (hout : (processPayment st0 req noFaults c).outcome = some p) :
    processPayment ((processPayment st0 req noFaults c).store) req f2 c2 =
      ⟨(processPayment st0 req noFaults c).store, [], none, []⟩ ∧
    (((processPayment st0 req noFaults c).store).rows.filter
        (fun r => decide (r.correlationId = req.correlationId))).length = 1 ∧
    requestsCounter ((processPayment st0 req noFaults c).store) p =
      some ((requestsCounter st0 p).getD 0 + 1) ∧
    amountCounter ((processPayment st0 req noFaults c).store) p =
      some ((amountCounter st0 p).getD 0 + req.amount) := by
  obtain ⟨hstore, -, -, -⟩ := processPayment_settled st0 req noFaults c p hout
  rw [hstore]
  have hcs : commitSuccess st0 req p noFaults =
      setProcessed (incrAmount (incrRequests st0 p) p req.amount)
        req.correlationId req.amount p := by
    simp [commitSuccess, noFaults]
  have hrows : (commitSuccess st0 req p noFaults).rows =
      st0.rows.filter (fun r => !decide (r.correlationId = req.correlationId)) ++
        [⟨req.correlationId, req.amount, p⟩] := by
    cases p <;> simp [hcs, setProcessed, incrAmount, incrRequests]
  have hex1 : existsCheck (commitSuccess st0 req p noFaults) req.correlationId = true := by
    simp [existsCheck, hrows]
  refine ⟨by simp [processPayment, hex1], ?_, ?_, ?_⟩
  · simp [hrows, List.filter_append, List.filter_filter]
  · cases p <;>
      simp [hcs, setProcessed, incrAmount, incrRequests, requestsCounter, optIncr]
  · cases p <;>
      simp [hcs, setProcessed, incrAmount, incrRequests, amountCounter, optIncrBy]

/-- C1 witness: settling "c1" once and then submitting it again leaves the
store as it was, and the default requests counter stands at exactly 1. -/
theorem idempotent_after_settle_witness :
    processPayment ((processPayment bothHealthyStore reqC1 noFaults cOk).store)
        reqC1 noFaults cOk =
      ⟨(processPayment bothHealthyStore reqC1 noFaults cOk).store, [], none, []⟩ ∧
    requestsCounter ((processPayment bothHealthyStore reqC1 noFaults cOk).store)
        Processor.default = some 1 := by
  have h := idempotent_after_settle bothHealthyStore reqC1 cOk Processor.default
    noFaults cOk (by decide)
  exact ⟨h.1, by rw [h.2.2.1]; decide⟩

/-- C1 counterexample, concurrent case: the existence check and the commit
are separate Redis commands with the external HTTP call in between, so two
concurrent runs for the same correlationId can interleave as: run A passes
the check on the initial store, run B passes the check on the same initial
store, both external calls succeed, run A commits, run B commits.  The
commit below is the success branch of processPayment (the second conjunct
pins that down), and the result is the requests counter at 2 — not the
exactly-once increment the claim asserts — while the marker row stays
unique because Redis SET overwrites. -/
theorem concurrent_duplicates_double_count :
    existsCheck bothHealthyStore reqC1.correlationId = false ∧
    (processPayment bothHealthyStore reqC1 noFaults cOk).store =
      commitSuccess bothHealthyStore reqC1 Processor.default noFaults ∧
    (commitSuccess (commitSuccess bothHealthyStore reqC1 Processor.default noFaults)
        reqC1 Processor.default noFaults).defaultRequests = some 2 ∧
    ((commitSuccess (commitSuccess bothHealthyStore reqC1 Processor.default noFaults)
        reqC1 Processor.default noFaults).rows.filter
      (fun r => decide (r.correlationId = reqC1.correlationId))).length = 1 :=
  ⟨rfl, rfl, rfl, rfl⟩

/-- C3 amended: after a purge the summary reads zero for both processors,
but the purge deletes only the four summary counter keys: every
processed-correlationId marker survives, so a previously settled
correlationId is still detected as already processed and its resubmission
is skipped rather than treated as new. -/
theorem purge_zeroes_totals_keeps_markers (st : Store) :
    handlePaymentsSummary (handlePurgePayments st) = ⟨⟨0, 0⟩, ⟨0, 0⟩⟩ ∧
    (handlePurgePayments st).rows = st.rows ∧
    ∀ req f c, existsCheck st req.correlationId = true →
      processPayment (handlePurgePayments st) req f c =
        ⟨handlePurgePayments st, [], none, []⟩ := by
  refine ⟨rfl, rfl, fun req f c hex => ?_⟩
  have hex2 : existsCheck (handlePurgePayments st) req.correlationId = true := hex
  simp [processPayment, hex2]

/-- C3 witness: after settling "c1" and purging, the summary is all zeros
and a resubmission of "c1" is a no-op. -/
theorem purge_zeroes_totals_keeps_markers_witness :
    handlePaymentsSummary (handlePurgePayments
        ((processPayment bothHealthyStore reqC1 noFaults cOk).store)) = ⟨⟨0, 0⟩, ⟨0, 0⟩⟩ ∧
    processPayment (handlePurgePayments
        ((processPayment bothHealthyStore reqC1 noFaults cOk).store)) reqC1 noFaults cOk =
      ⟨handlePurgePayments ((processPayment bothHealthyStore reqC1 noFaults cOk).store),
       [], none, []⟩ := by
  have h := purge_zeroes_totals_keeps_markers
    ((processPayment bothHealthyStore reqC1 noFaults cOk).store)
  exact ⟨h.1, h.2.2 reqC1 noFaults cOk (by decide)⟩

/-- C3 counterexample: settle "c1", purge, resubmit "c1" with both
processors healthy and a call that would succeed — the marker is still
found, so the resubmission is skipped (store unchanged, no attempt),
contradicting the claim that no prior correlationId is still detected as
already processed. -/
theorem purge_leaves_id_processed :
    existsCheck (handlePurgePayments
        ((processPayment bothHealthyStore reqC1 noFaults cOk).store))
      reqC1.correlationId = true ∧
    processPayment (handlePurgePayments
        ((processPayment bothHealthyStore reqC1 noFaults cOk).store)) reqC1 noFaults cOk =
      ⟨handlePurgePayments ((processPayment bothHealthyStore reqC1 noFaults cOk).store),
       [], none, []⟩ := by
  decide

/-- C2 counterexample: the sequence settle "c1" then purge yields a store
in which the summary says 0 default requests while one persisted row with
processor default exists, so the claimed equality does not survive a
purge. -/
theorem summary_rows_diverge_after_purge :
    ¬ (procSummary (handlePaymentsSummary (handlePurgePayments
          ((processPayment bothHealthyStore reqC1 noFaults cOk).store)))
        Processor.default).totalRequests =
       ((rowsFor (handlePurgePayments
          ((processPayment bothHealthyStore reqC1 noFaults cOk).store))
          Processor.default).length : Int) := by
  decide

end RinhaGo
namespace RinhaGo

theorem processPayment_dropped (st : Store) (req : PaymentRequest) (f : RedisFaults)
    (c : CallOutcomes) (hout : (processPayment st req f c).outcome = none) :
    (processPayment st req f c).store = st := by
  simp only [processPayment] at hout ⊢
  split_ifs at hout ⊢ <;> simp_all

theorem summaryMatchesRows_init : summaryMatchesRows initStore := by
  intro p
  cases p <;> exact ⟨rfl, rfl⟩

theorem commitSuccess_matches (st : Store) (req : PaymentRequest) (q : Processor)
    (hnew : existsCheck st req.correlationId = false)
    (h : summaryMatchesRows st) :
    summaryMatchesRows (commitSuccess st req q noFaults) := by
  have hall : ∀ r ∈ st.rows,
      (fun r => !decide (r.correlationId = req.correlationId)) r = true := by
    intro r hr
    have hne := List.any_eq_false.mp hnew r hr
    simpa using hne
  have hfilter :
      st.rows.filter (fun r => !decide (r.correlationId = req.correlationId)) = st.rows :=
    List.filter_eq_self.mpr hall
  have hrows : (commitSuccess st req q noFaults).rows =
      st.rows ++ [⟨req.correlationId, req.amount, q⟩] := by
    cases q <;>
      simp [commitSuccess, noFaults, setProcessed, incrAmount, incrRequests, hfilter]
  intro p
  obtain ⟨h1, h2⟩ := h p
  have hcnt : (rowsFor (commitSuccess st req q noFaults) p).length =
      (rowsFor st p).length + (if q = p then 1 else 0) := by
    simp only [rowsFor, hrows, List.filter_append]
    cases q <;> cases p <;> simp
  have hsum : sumAmount (rowsFor (commitSuccess st req q noFaults) p) =
      sumAmount (rowsFor st p) + (if q = p then req.amount else 0) := by
    simp only [rowsFor, hrows, List.filter_append, sumAmount, List.map_append,
      List.sum_append]
    cases q <;> cases p <;> simp
  have hreq : (procSummary (handlePaymentsSummary (commitSuccess st req q noFaults))
        p).totalRequests =
      (procSummary (handlePaymentsSummary st) p).totalRequests +
        (if q = p then 1 else 0) := by
    cases q <;> cases p <;>
      simp [commitSuccess, noFaults, setProcessed, incrAmount, incrRequests,
        handlePaymentsSummary, procSummary, optIncr, optIncrBy]
  have hamt : (procSummary (handlePaymentsSummary (commitSuccess st req q noFaults))
        p).totalAmount =
      (procSummary (handlePaymentsSummary st) p).totalAmount +
        (if q = p then req.amount else 0) := by
    cases q <;> cases p <;>
      simp [commitSuccess, noFaults, setProcessed, incrAmount, incrRequests,
        handlePaymentsSummary, procSummary, optIncr, optIncrBy]
  constructor
  · rw [hreq, hcnt, h1]
    by_cases hqp : q = p <;> simp [hqp]
  · rw [hamt, hsum, h2]

theorem step_matches (st : Store) (op : SysOp) (hop : op ≠ SysOp.purge)
    (h : summaryMatchesRows st) : summaryMatchesRows (step st op) := by
  cases op with
  | summaryQuery => exact h
  | purge => exact absurd rfl hop
  | probe p r =>
    intro q
    have hq := h q
    cases p <;> cases q <;>
      simpa [step, checkProcessorHealth, setHealth, handlePaymentsSummary,
        procSummary, rowsFor] using hq
  | process req c =>
    show summaryMatchesRows ((processPayment st req noFaults c).store)
    rcases hcase : (processPayment st req noFaults c).outcome with - | p
    · rw [processPayment_dropped st req noFaults c hcase]
      exact h
    · obtain ⟨hstore, -, hnew, -⟩ := processPayment_settled st req noFaults c p hcase
      rw [hstore]
      exact commitSuccess_matches st req p hnew h

theorem run_matches (ops : List SysOp) (st : Store) (hops : SysOp.purge ∉ ops)
    (h : summaryMatchesRows st) : summaryMatchesRows (run st ops) := by
  induction ops generalizing st with
  | nil => exact h
  | cons op ops ih =>
    have hop : op ≠ SysOp.purge := by
      intro he
      exact hops (he ▸ List.mem_cons_self op ops)
    have hops2 : SysOp.purge ∉ ops := fun hm => hops (List.mem_cons_of_mem op hm)
    exact ih (step st op) hops2 (step_matches st op hop h)

/-- C2 amended: starting from the empty store, after any sequence of
process-payment runs (all Redis writes succeeding), summary queries and
health probes — but no purge — the summary equals, per processor, the
count and the amount-sum of the persisted rows settled by that processor.
A purge breaks the equality because it resets the four counters while
leaving the persisted markers in place. -/
theorem summary_matches_rows_without_purge (ops : List SysOp)
    (hops : SysOp.purge ∉ ops) :
    summaryMatchesRows (run initStore ops) :=
  run_matches ops initStore hops summaryMatchesRows_init

/-- A purge-free run: probe default healthy, settle one payment, query. -/
def witnessOps : List SysOp :=
  [SysOp.probe Processor.default (ProbeOutcome.httpResponse 200 (some false)),
   SysOp.process reqC1 cOk, SysOp.summaryQuery]

/-- C2 witness: the invariant holds on a concrete purge-free run that
settles one payment. -/
theorem summary_matches_rows_without_purge_witness :
    SysOp.purge ∉ witnessOps ∧ summaryMatchesRows (run initStore witnessOps) :=
  ⟨by decide, summary_matches_rows_without_purge witnessOps (by decide)⟩

end RinhaGo
